import Mathlib

/-!
Shallow embedding of the Lattera direct-messaging application, covering the
client-side chat synchronization logic (client/src/pages/MainChat.tsx,
client/src/components/MessageWindow.tsx) and the server chat routes
(server/src/routes/chats.ts), together with theorems settling the frozen
claims about this code.

Conventions of the embedding:
  * React `useState` setters become explicit state-passing: each handler is a
    pure function from the relevant piece of state to its updated value.
  * JavaScript objects with optional fields become structures with `Option`
    fields; JS `Map` / plain-object counter maps become association lists
    `List (String × Int)` with first-match lookup, and `...spread` key update
    becomes `setCount` (remove the key, then cons the new binding), which has
    the same lookup semantics.
  * `setTimeout` / `clearTimeout` become an explicit table of pending timers
    carrying a fresh identifier and a millisecond deadline; a timer callback
    is modelled by `fireTypingTimer`, which has an effect only when the fired
    identifier is still the registered one (a cleared timer never fires).
-/

/-! ## Data model (client/src/types/api.ts shapes used by the chat pages) -/

/-- The populated sender object carried on a message (id, first and last name). -/
structure Sender where
  id : String
  firstName : String
  lastName : String
deriving DecidableEq, Repr

/-- An attached media descriptor: `{ type, url }` in the source; the `type`
field is named `mtype` here because `type` is a Lean keyword. -/
structure Media where
  mtype : String
  url : String
deriving DecidableEq, Repr

/-- A chat message as held in the client message list
(`MessageWithSenderResponse` plus the transient overlay flags `_isNew`,
`_isDeleting`, `_isEditing`; an absent JS flag is modelled as `false`). -/
structure Msg where
  id : String
  chatId : String
  senderId : String
  sender : Option Sender
  content : Option String
  media : Option Media
  editedAt : Option String
  deletedFor : List String
  timestamp : String
  status : String
  deliveredAt : Option String
  isNew : Bool := false
  isDeleting : Bool := false
  isEditing : Bool := false
deriving DecidableEq, Repr

/-- The denormalized last-message summary stored on a chat. -/
structure LastMsg where
  content : Option String
  senderId : String
  timestamp : String
deriving DecidableEq, Repr

/-- Per-participant unread counters: the source keeps a JS object or `Map`
from user id to number; embedded as an association list with first-match
lookup and a default of `0` for an absent key. -/
def getCount (m : List (String × Int)) (k : String) : Int :=
  (m.lookup k).getD 0

/-- Key update with object-spread semantics `{...m, [k]: v}`: the binding for
`k` becomes `v` and every other binding keeps its value. -/
def setCount (m : List (String × Int)) (k : String) (v : Int) : List (String × Int) :=
  (k, v) :: m.filter (fun p => p.1 != k)

/-- A chat as held in the client chat list (`ChatResponseData`, the fields the
claims touch: id, last-message summary, unread counters). -/
structure ChatC where
  id : String
  lastMessage : Option LastMsg
  unreadCount : List (String × Int)
deriving DecidableEq, Repr

/-! ## MainChat.tsx: optimistic edit (handleEditMessage) -/

/-- The optimistic update of `handleEditMessage` (MainChat.tsx lines 121-127):
the matching message gets the new content, a fresh edit timestamp, and its
editing flag cleared; every other message is untouched. -/
def editMessageOptimistic (messageId newContent now : String) (ms : List Msg) : List Msg :=
  ms.map fun m =>
    if m.id == messageId then
      { m with content := some newContent, editedAt := some now, isEditing := false }
    else m

/-- The rollback executed in the catch branch of `handleEditMessage`
(MainChat.tsx line 142): the source runs `setMessages((prev) => prev)`, the
identity on the current list. -/
def editRollbackOnError (ms : List Msg) : List Msg := ms

/-- The full state evolution of `handleEditMessage` when the server call
fails: the optimistic update is applied, then the catch branch runs its
rollback on the resulting list. -/
def handleEditMessageFailed (messageId newContent now : String) (ms : List Msg) : List Msg :=
  editRollbackOnError (editMessageOptimistic messageId newContent now ms)

/-- Concrete pre-edit message used to exhibit the missing edit rollback. -/
def msgOld : Msg :=
  { id := "m1", chatId := "chatA", senderId := "u1",
    sender := some { id := "u1", firstName := "A", lastName := "B" },
    content := some "old text", media := none, editedAt := none,
    deletedFor := [], timestamp := "2024-01-01T00:00:00Z",
    status := "sent", deliveredAt := some "2024-01-01T00:00:01Z" }

/-! ## MessageWindow.tsx: inbound socket event reconciliation -/

/-- The sender defaulting applied by the new-message handler
(MessageWindow.tsx lines 364-371): `message.sender || { id: senderId, ... }`. -/
def withSenderDefault (m : Msg) : Msg :=
  match m.sender with
  | some _ => m
  | none => { m with sender := some { id := m.senderId, firstName := "", lastName := "" } }

/-- The `onNewMessage` subscriber of MessageWindow (lines 358-375): an event
for another chat is ignored; an event whose id is already in the list leaves
the list unchanged; otherwise the message (with defaulted sender) is
appended. -/
def wOnNewMessage (chatId : String) (ev : Msg) (ms : List Msg) : List Msg :=
  if ev.chatId != chatId then ms
  else if ms.any (fun m => m.id == ev.id) then ms
  else ms ++ [withSenderDefault ev]

/-- The `onMessageDeleted` subscriber (lines 377-381): for an event scoped to
the open chat, every message whose id matches is filtered out. -/
def wOnMessageDeleted (chatId evChatId messageId : String) (ms : List Msg) : List Msg :=
  if evChatId == chatId then ms.filter (fun m => m.id != messageId) else ms

/-- The `onMessageEdited` subscriber (lines 383-393): for an event scoped to
the open chat, the matching message gets the event content and edit
timestamp; everything else is untouched. -/
def wOnMessageEdited (chatId evChatId messageId newContent newEditedAt : String)
    (ms : List Msg) : List Msg :=
  if evChatId == chatId then
    ms.map fun m =>
      if m.id == messageId then
        { m with content := some newContent, editedAt := some newEditedAt }
      else m
  else ms

/-! ## MainChat.tsx: chat-list update on an inbound new-message event -/

/-- The first `setChats` updater of the `onNewMessage` handler in MainChat
(lines 297-323): only the chat matching the event is changed; its last-message
summary is replaced and the current user's unread counter is incremented by
one exactly when the sender is not the current user and the event's chat is
not the currently selected chat. -/
def updateChatsOnNewMessage (me : String) (selected : Option String) (ev : Msg)
    (chats : List ChatC) : List ChatC :=
  chats.map fun chat =>
    if chat.id != ev.chatId then chat
    else
      let shouldIncrementUnread := ev.senderId != me && !(selected == some ev.chatId)
      { chat with
        lastMessage := some { content := ev.content, senderId := ev.senderId,
                              timestamp := ev.timestamp },
        unreadCount :=
          if shouldIncrementUnread then
            setCount chat.unreadCount me (getCount chat.unreadCount me + 1)
          else chat.unreadCount }

/-- The second `setChats` updater of the `onNewMessage` handler (lines
326-333): the chat carrying the new message is moved to the front of the
list; an absent chat or one already at index 0 leaves the list unchanged. -/
def moveChatToFront (chatId : String) (l : List ChatC) : List ChatC :=
  match l.findIdx? (fun c => c.id == chatId) with
  | none => l
  | some i =>
    if i == 0 then l
    else
      match l[i]? with
      | none => l
      | some chat => chat :: l.eraseIdx i

/-- Concrete duplicate-delivery event: same id as `msgOld`, scoped to chatA. -/
def evDup : Msg :=
  { id := "m1", chatId := "chatA", senderId := "u1", sender := none,
    content := some "old text", media := none, editedAt := none,
    deletedFor := [], timestamp := "2024-01-01T00:00:00Z",
    status := "sent", deliveredAt := none }

/-- Concrete chat with no unread counters yet, used as a witness input. -/
def chatA0 : ChatC := { id := "chatA", lastMessage := none, unreadCount := [] }

/-- Concrete inbound message event into chatA from user u1, used as a witness
input for the unread-counter claim. -/
def evC3 : Msg :=
  { id := "m7", chatId := "chatA", senderId := "u1", sender := none,
    content := some "hi", media := none, editedAt := none,
    deletedFor := [], timestamp := "2024-01-02T00:00:00Z",
    status := "sent", deliveredAt := none }

/-! ## MainChat.tsx: message pagination and chat selection state -/

/-- The pieces of MainChat state driving message fetching: the selected chat
id, the message list, the more-history flag (`hasMoreMessages`), the stored
offset (`messagesOffset`), and the in-flight flag (`messagesLoading`). -/
structure ClientChatState where
  selectedChatId : Option String
  messages : List Msg
  hasMore : Bool
  offset : Nat
  loading : Bool
deriving DecidableEq, Repr

/-- The synchronous part of `handleChatSelect` (MainChat.tsx lines 84-87):
the chat becomes selected and the message list and offset are reset. -/
def handleChatSelect (chatId : String) (st : ClientChatState) : ClientChatState :=
  { st with selectedChatId := some chatId, messages := [], offset := 0 }

/-- The start of `loadMessages` (line 55): the loading flag is raised before
the request goes out. -/
def loadMessagesStart (st : ClientChatState) : ClientChatState :=
  { st with loading := true }

/-- The success continuation of `loadMessages` (lines 62-69 plus the finally
block): an initial page (offset 0) replaces the list, a later page is
reversed and prepended; the more-history flag records whether the page was
full (length 50); the stored offset advances by the page length; the loading
flag clears.  The response is applied without comparing its chat against the
currently selected chat. -/
def loadMessagesApply (off : Nat) (page : List Msg) (st : ClientChatState) :
    ClientChatState :=
  { st with
    messages := if off == 0 then page.reverse else page.reverse ++ st.messages
    hasMore := page.length == 50
    offset := off + page.length
    loading := false }

/-- The failure continuation of `loadMessages` (catch plus finally): only the
loading flag clears. -/
def loadMessagesFailed (st : ClientChatState) : ClientChatState :=
  { st with loading := false }

/-- `handleLoadMoreMessages` (lines 110-114): the fetch request (chat id and
stored offset) it issues, or `none` when it is suppressed.  A request goes
out only when a chat is selected, more history is known to exist, and no
fetch is already in flight. -/
def handleLoadMoreMessages (st : ClientChatState) : Option (String × Nat) :=
  match st.selectedChatId with
  | some cid => if st.hasMore && !st.loading then some (cid, st.offset) else none
  | none => none

/-- The scroll geometry read by `handleScroll` (MessageWindow.tsx lines
426-436). -/
structure ScrollMetrics where
  scrollTop : Int
  scrollHeight : Int
  clientHeight : Int
deriving DecidableEq, Repr

/-- `handleScroll`: recomputes the near-bottom auto-scroll flag and, when the
viewport is within 100px of the top, more history exists and no fetch is in
flight, invokes its `onLoadMore` prop (`handleLoadMoreMessages`); the result
is the new auto-scroll flag and the fetch request issued, if any. -/
def handleScroll (geom : ScrollMetrics) (st : ClientChatState) :
    Bool × Option (String × Nat) :=
  let isNearBottom := decide (geom.scrollHeight - geom.scrollTop - geom.clientHeight < 100)
  let issued :=
    if decide (geom.scrollTop < 100) && st.hasMore && !st.loading then
      handleLoadMoreMessages st
    else none
  (isNearBottom, issued)

/-- Modelled from the spec: the server message-list endpoint
(server/src/routes/messages.ts is not among the sources; only its client
callers and client tests are).  Per the spec the endpoint returns the stored
messages of the chat newest-first, skipping `off` records and taking at most
`limit`; the client then reverses the page to chronological order. -/
def listMessagesPage (storedNewestFirst : List Msg) (off limit : Nat) : List Msg :=
  (storedNewestFirst.drop off).take limit

/-- State used as a generic starting point in witnesses. -/
def stEmpty : ClientChatState :=
  { selectedChatId := none, messages := [], hasMore := false, offset := 0,
    loading := false }

/-- A concrete 60-message chat history (newest-first) for the pagination
scenario. -/
def storedC4 : List Msg :=
  (List.range 60).map fun i =>
    { id := toString i, chatId := "chatA", senderId := "u1", sender := none,
      content := some "x", media := none, editedAt := none, deletedFor := [],
      timestamp := "t", status := "sent", deliveredAt := none }

/-- The stale-fetch scenario: chatA is selected with a fetch in flight, the
user switches to chatB, then chatA's response (one message of chatA) arrives
and is applied by `loadMessagesApply`. -/
def staleScenario : ClientChatState :=
  loadMessagesApply 0 [msgOld]
    (handleChatSelect "chatB"
      { selectedChatId := some "chatA", messages := [], hasMore := false,
        offset := 0, loading := true })

/-- Concrete in-flight state for the fetch-suppression witness. -/
def stLoading : ClientChatState :=
  { selectedChatId := some "chatA", messages := [], hasMore := true,
    offset := 50, loading := true }

/-- Concrete scroll geometry for the fetch-suppression witness. -/
def geom0 : ScrollMetrics := { scrollTop := 0, scrollHeight := 0, clientHeight := 0 }

/-! ## MainChat.tsx: optimistic send (handleSendMessage) -/

/-- The locally fabricated temporary record of `handleSendMessage`
(lines 177-194): temporary id, status "sending", no media, no edit or
delivery timestamp. -/
def tempMessage (tempId chatId : String) (sender : Sender) (content now : String) :
    Msg :=
  { id := tempId, chatId := chatId, senderId := sender.id, sender := some sender,
    content := some content, media := none, editedAt := none, deletedFor := [],
    timestamp := now, status := "sending", deliveredAt := none }

/-- The optimistic append (line 196). -/
def sendOptimistic (tmp : Msg) (ms : List Msg) : List Msg := ms ++ [tmp]

/-- The success continuation of `handleSendMessage` (lines 233-248): the
record carrying the temporary id is replaced by the server response with the
sender object re-attached, status "sent", and the delivery timestamp
stamped. -/
def sendSuccess (tempId : String) (resp : Msg) (sender : Sender) (now : String)
    (ms : List Msg) : List Msg :=
  ms.map fun m =>
    if m.id == tempId then
      { resp with sender := some sender, status := "sent", deliveredAt := some now }
    else m

/-- The failure continuation of `handleSendMessage` (line 267; the
media-upload failure at line 222 is the same statement): the record carrying
the temporary id is filtered out. -/
def sendFailure (tempId : String) (ms : List Msg) : List Msg :=
  ms.filter fun m => m.id != tempId

/-- Concrete server response for the optimistic-send witness. -/
def respC5 : Msg :=
  { id := "srv9", chatId := "chatA", senderId := "u1", sender := none,
    content := some "hello", media := none, editedAt := none, deletedFor := [],
    timestamp := "2024-01-04T00:00:00Z", status := "sent", deliveredAt := none }

/-! ## MainChat.tsx: typing indicator timers (onTyping handler) -/

/-- A typing event from the socket: chat, user, and whether it is a start
(`isTyping` true) or an explicit stop. -/
structure TypingEvent where
  chatId : String
  userId : String
  isTyping : Bool
deriving DecidableEq, Repr

/-- The typing-indicator state of MainChat: the users currently shown as
typing (JS `Set` insertion order, duplicate-free), the pending auto-clear
timers of `typingTimeoutRef` as (user id, timer identifier, expiry deadline
in ms), and a counter supplying fresh timer identifiers. -/
structure TypingState where
  typingUsers : List String
  timers : List (String × Nat × Nat)
  nextTimer : Nat
deriving DecidableEq, Repr

/-- JS `new Set(prev).add(u)`: appends `u` when absent. -/
def addTypingUser (l : List String) (u : String) : List String :=
  if l.contains u then l else l ++ [u]

/-- The `onTyping` handler (MainChat.tsx lines 349-383) with `setTimeout`
made explicit: an event for a chat other than the open one is ignored; a
typing-start adds the user, clears any pending timer for that user and
registers a fresh one expiring 5000 ms from now; a typing-stop removes the
user and clears the pending timer. -/
def onTypingEvent (selected : Option String) (ev : TypingEvent) (now : Nat)
    (st : TypingState) : TypingState :=
  if !(some ev.chatId == selected) then st
  else if ev.isTyping then
    { typingUsers := addTypingUser st.typingUsers ev.userId
      timers := (ev.userId, st.nextTimer, now + 5000)
                  :: st.timers.filter (fun e => e.1 != ev.userId)
      nextTimer := st.nextTimer + 1 }
  else
    { typingUsers := st.typingUsers.filter (fun u => u != ev.userId)
      timers := st.timers.filter (fun e => e.1 != ev.userId)
      nextTimer := st.nextTimer }

/-- The timeout callback registered by a typing-start (lines 360-367), with
`clearTimeout` made explicit through the identity guard: a timer that has
been cleared or superseded is no longer in the table under its identifier and
never fires; a still-registered timer removes its user from the typing set
and deletes its table entry. -/
def fireTypingTimer (userId : String) (timerId : Nat) (st : TypingState) :
    TypingState :=
  if st.timers.any (fun e => e.1 == userId && e.2.1 == timerId) then
    { typingUsers := st.typingUsers.filter (fun u => u != userId)
      timers := st.timers.filter (fun e => e.1 != userId)
      nextTimer := st.nextTimer }
  else st

/-- Concrete typing-start event for the typing witness. -/
def evTypingStart : TypingEvent := { chatId := "chatA", userId := "u1", isTyping := true }

/-- Concrete empty typing state. -/
def typingSt0 : TypingState := { typingUsers := [], timers := [], nextTimer := 0 }

/-- Concrete typing state in which u1 has a pending auto-clear timer. -/
def typingStarted : TypingState :=
  { typingUsers := ["u1"], timers := [("u1", 0, 5000)], nextTimer := 1 }

/-! ## server/src/routes/chats.ts -/

/-- The typed errors raised by the chat routes. -/
inductive ApiError where
  | badRequest
  | forbidden
  | notFound
deriving DecidableEq, Repr

/-- A chat document as persisted (participants are user ids; the `type` field
is named `ctype` because `type` is a Lean keyword). -/
structure ServerChat where
  id : String
  participants : List String
  ctype : String
  lastMessage : Option LastMsg
  unreadCount : List (String × Int)
  updatedAt : String
deriving DecidableEq, Repr

/-- Mongo `Types.ObjectId.isValid` for the 24-character hex string
representation used by the API. -/
def isValidObjectId (s : String) : Bool :=
  s.length == 24 && s.toList.all (fun ch => ch.isDigit || "abcdef".toList.contains ch)

/-- POST /api/chats/:chatId/read (chats.ts lines 393-424): after the id
format check, the route raises NotFound when no chat carries the id and
Forbidden when the caller is not a participant, in both cases before any
write; on success a single-key `$set` resets exactly the caller's counter to
zero. -/
def markChatRead (db : List ServerChat) (chatId userId : String) :
    Except ApiError (List ServerChat) :=
  if !(isValidObjectId chatId) then .error .badRequest
  else
    match db.find? (fun c => c.id == chatId) with
    | none => .error .notFound
    | some chat =>
      if chat.participants.contains userId then
        .ok (db.map fun c =>
          if c.id == chatId then
            { c with unreadCount := setCount c.unreadCount userId 0 }
          else c)
      else .error .forbidden

/-- The outcome of `Number(raw)` plus the integer check on a query parameter:
`none` is an omitted parameter, `some none` a supplied value that is not an
integer (NaN or fractional), `some (some n)` the integer `n`. -/
abbrev RawIntParam := Option (Option Int)

/-- Parsing of the `limit` query parameter (chats.ts lines 129-142): default
50; a supplied value must be an integer between 1 and 100. -/
def parseLimit (raw : RawIntParam) : Except ApiError Int :=
  match raw with
  | none => .ok 50
  | some none => .error .badRequest
  | some (some n) => if 1 ≤ n ∧ n ≤ 100 then .ok n else .error .badRequest

/-- Parsing of the `offset` query parameter (lines 130-150): default 0; a
supplied value must be a non-negative integer. -/
def parseOffset (raw : RawIntParam) : Except ApiError Int :=
  match raw with
  | none => .ok 0
  | some none => .error .badRequest
  | some (some n) => if 0 ≤ n then .ok n else .error .badRequest

/-- The JSON body answered by GET /api/chats (lines 179-234): totals, the
echoed pagination parameters, and the page of chats (whose counter maps are
copied binding for binding into the response). -/
structure ChatListResponse where
  total : Nat
  count : Nat
  limit : Int
  offset : Int
  chats : List ServerChat
deriving DecidableEq, Repr

/-- The descending Mongo sort `{ 'lastMessage.timestamp': -1, updatedAt: -1 }`
(line 166): compare last-message timestamps descending, tie-break on
`updatedAt` descending; a chat without a last message (a null key) sorts
after every chat with one. -/
def chatSortLe (a b : ServerChat) : Bool :=
  match a.lastMessage, b.lastMessage with
  | some x, some y =>
    if x.timestamp = y.timestamp then decide (b.updatedAt ≤ a.updatedAt)
    else decide (y.timestamp ≤ x.timestamp)
  | some _, none => true
  | none, some _ => false
  | none, none => decide (b.updatedAt ≤ a.updatedAt)

/-- GET /api/chats (lines 118-235): the pagination parameters are validated
before any chat is read; then the caller's chats are counted, sorted, and
paged. -/
def listChats (db : List ServerChat) (userId : String)
    (limitRaw offsetRaw : RawIntParam) : Except ApiError ChatListResponse :=
  match parseLimit limitRaw with
  | .error e => .error e
  | .ok lim =>
    match parseOffset offsetRaw with
    | .error e => .error e
    | .ok off =>
      let mine := db.filter (fun c => c.participants.contains userId)
      let page := ((mine.mergeSort chatSortLe).drop off.toNat).take lim.toNat
      .ok { total := mine.length, count := page.length, limit := lim, offset := off,
            chats := page }

/-- The `getUnreadCount` helper (chats.ts lines 33-41), used when building
per-participant counters in responses: reads a user's counter from the stored
map and reports 0 for an absent key (`get(userId) || 0`). -/
def getUnreadCount (unread : List (String × Int)) (userId : String) : Int :=
  (unread.lookup userId).getD 0

/-- Concrete chat document for the mark-read witness: two participants with
nonzero counters. -/
def chatS : ServerChat :=
  { id := "0123456789abcdef01234567", participants := ["u1", "u2"],
    ctype := "private", lastMessage := none,
    unreadCount := [("u1", 3), ("u2", 5)], updatedAt := "t1" }

/-- The expected document after u1 marks `chatS` read. -/
def chatSRead : ServerChat := { chatS with unreadCount := [("u1", 0), ("u2", 5)] }

/-! ## Theorems -/

/-- C1: the claim says a failed edit restores the message content to its
pre-edit value, leaving the list equal to the pre-edit list.  The code does
not: the catch branch of `handleEditMessage` is `setMessages((prev) => prev)`,
a no-op on the optimistically updated list, so after a failed edit of `msgOld`
to content "new text" the list still carries the optimistic content "new
text", not the pre-edit list `[msgOld]`. -/
theorem c1_failed_edit_keeps_optimistic_content :
    handleEditMessageFailed "m1" "new text" "2024-01-01T00:10:00Z" [msgOld] ≠ [msgOld] ∧
    (handleEditMessageFailed "m1" "new text" "2024-01-01T00:10:00Z" [msgOld]).map
        (fun m => m.content) = [some "new text"] := by
  constructor
  · decide
  · decide

/-- The new-message handler defaults the sender object but never changes the
message id. -/
theorem withSenderDefault_id (m : Msg) : (withSenderDefault m).id = m.id := by
  unfold withSenderDefault
  rcases hm : m.sender with _ | s <;> simp [hm]

/-- Filtering a key out of a counter map does not disturb lookups of any
other key. -/
theorem lookup_filter_ne (m : List (String × Int)) (k k' : String) (h : k' ≠ k) :
    ((m.filter fun p => p.1 != k).lookup k') = m.lookup k' := by
  induction m with
  | nil => rfl
  | cons a l ih =>
    obtain ⟨a1, a2⟩ := a
    by_cases ha : a1 = k
    · subst ha
      have hk : (k' == a1) = false := by simp [h]
      simp [List.filter_cons, List.lookup, hk, ih]
    · cases hb : (k' == a1) <;> simp [List.filter_cons, ha, List.lookup, hb, ih]

/-- Updating key `k` makes its counter `v`. -/
theorem getCount_setCount_same (m : List (String × Int)) (k : String) (v : Int) :
    getCount (setCount m k v) k = v := by
  simp [getCount, setCount, List.lookup]

/-- Updating key `k` leaves every other counter unchanged. -/
theorem getCount_setCount_ne (m : List (String × Int)) (k k' : String) (v : Int)
    (h : k' ≠ k) : getCount (setCount m k v) k' = getCount m k' := by
  have hb : (k' == k) = false := by simp [h]
  simp [getCount, setCount, List.lookup, hb, lookup_filter_ne m k k' h]

/-- Moving the element found at index `i` to the front preserves membership. -/
theorem mem_cons_eraseIdx {α : Type} (l : List α) (i : Nat) (c x : α)
    (h : l[i]? = some c) : x ∈ c :: l.eraseIdx i ↔ x ∈ l := by
  induction l generalizing i with
  | nil => simp at h
  | cons a t ih =>
    cases i with
    | zero =>
      simp at h
      subst h
      simp [List.eraseIdx]
    | succ n =>
      simp at h
      have hmem := ih n h
      simp [List.eraseIdx, List.mem_cons] at hmem ⊢
      tauto

/-- `moveChatToFront` only reorders the chat list: membership is unchanged. -/
theorem mem_moveChatToFront (chatId : String) (l : List ChatC) (x : ChatC) :
    x ∈ moveChatToFront chatId l ↔ x ∈ l := by
  unfold moveChatToFront
  cases hf : l.findIdx? (fun c => c.id == chatId) with
  | none => exact Iff.rfl
  | some i =>
    by_cases hi : i = 0
    · simp [hi]
    · have hib : (i == 0) = false := by simp [hi]
      simp only [hib, Bool.false_eq_true, if_false]
      cases hg : l[i]? with
      | none => exact Iff.rfl
      | some chat => exact mem_cons_eraseIdx l i chat x hg

/-- C2: inbound events scoped to the open chat reconcile the client message
list as claimed: a created event whose id is already present leaves the list
unchanged and delivering the same created event twice equals delivering it
once; an edited event rewrites exactly the content and edit timestamp of the
matching message and nothing else; a deleted event removes exactly the
messages with the matching id. -/
theorem c2_inbound_event_reconciliation (chatId mid c t : String) (ev : Msg)
    (ms : List Msg) :
    (ev.chatId = chatId → (∃ m ∈ ms, m.id = ev.id) → wOnNewMessage chatId ev ms = ms)
    ∧ wOnNewMessage chatId ev (wOnNewMessage chatId ev ms) = wOnNewMessage chatId ev ms
    ∧ (wOnMessageEdited chatId chatId mid c t ms).length = ms.length
    ∧ (∀ i (hi : i < (wOnMessageEdited chatId chatId mid c t ms).length)
         (hj : i < ms.length),
         ((ms.get ⟨i, hj⟩).id = mid →
            (wOnMessageEdited chatId chatId mid c t ms).get ⟨i, hi⟩
              = { ms.get ⟨i, hj⟩ with content := some c, editedAt := some t })
         ∧ ((ms.get ⟨i, hj⟩).id ≠ mid →
            (wOnMessageEdited chatId chatId mid c t ms).get ⟨i, hi⟩ = ms.get ⟨i, hj⟩))
    ∧ (∀ m, m ∈ wOnMessageDeleted chatId chatId mid ms ↔ m ∈ ms ∧ m.id ≠ mid) := by
  refine ⟨?_, ?_, ?_, ?_, ?_⟩
  · rintro hc ⟨m, hm, hid⟩
    have hany : ms.any (fun x => x.id == ev.id) = true := by
      simp only [List.any_eq_true, beq_iff_eq]
      exact ⟨m, hm, hid⟩
    simp [wOnNewMessage, hc, hany]
  · by_cases hc : ev.chatId = chatId
    · by_cases hany : ms.any (fun x => x.id == ev.id) = true
      · simp [wOnNewMessage, hc, hany]
      · have h1 : wOnNewMessage chatId ev ms = ms ++ [withSenderDefault ev] := by
          simp [wOnNewMessage, hc, hany]
        have hany2 : (ms ++ [withSenderDefault ev]).any (fun x => x.id == ev.id) = true := by
          simp [withSenderDefault_id]
        rw [h1]
        simp [wOnNewMessage, hc, hany2]
    · simp [wOnNewMessage, hc]
  · simp [wOnMessageEdited]
  · intro i hi hj
    constructor
    · intro hmid
      simp only [List.get_eq_getElem] at hmid ⊢
      simp [wOnMessageEdited, hmid]
    · intro hmid
      simp only [List.get_eq_getElem] at hmid ⊢
      simp [wOnMessageEdited, hmid]
  · intro m
    simp [wOnMessageDeleted, List.mem_filter]

/-- Witness for C2 at concrete inputs: delivering `evDup` (whose id m1 is
already held by `msgOld`) leaves the singleton list unchanged, a deleted
event for m1 empties the list, and an edited event for m1 rewrites exactly
content and edit timestamp of `msgOld`. -/
theorem c2_inbound_event_reconciliation_witness :
    wOnNewMessage "chatA" evDup [msgOld] = [msgOld]
    ∧ (∀ m, m ∈ wOnMessageDeleted "chatA" "chatA" "m1" [msgOld] ↔ m ∈ [msgOld] ∧ m.id ≠ "m1")
    ∧ (wOnMessageEdited "chatA" "chatA" "m1" "new body" "2024-01-03T00:00:00Z" [msgOld]).get
        ⟨0, by decide⟩
        = { msgOld with
            content := some "new body"
            editedAt := some "2024-01-03T00:00:00Z" } := by
  have h := c2_inbound_event_reconciliation "chatA" "m1" "new body"
    "2024-01-03T00:00:00Z" evDup [msgOld]
  refine ⟨h.1 rfl ⟨msgOld, by simp, by decide⟩, h.2.2.2.2, ?_⟩
  exact (h.2.2.2.1 0 (by decide) (by decide)).1 (by decide)

/-- C3: on an inbound new-message event, the chat-list updater increments the
current user's unread counter for the event's chat by exactly one when the
sender is someone else and that chat is not the open one; in every other case
all counters are unchanged; counters stay non-negative; and the subsequent
move-to-front step only reorders the list. -/
theorem c3_unread_counters (me : String) (selected : Option String) (ev : Msg)
    (chats : List ChatC) :
    (∀ i (hi : i < (updateChatsOnNewMessage me selected ev chats).length)
       (hj : i < chats.length),
       ((chats.get ⟨i, hj⟩).id ≠ ev.chatId →
          (updateChatsOnNewMessage me selected ev chats).get ⟨i, hi⟩ = chats.get ⟨i, hj⟩)
       ∧ ((chats.get ⟨i, hj⟩).id = ev.chatId → ev.senderId ≠ me →
            selected ≠ some ev.chatId →
            getCount ((updateChatsOnNewMessage me selected ev chats).get
                ⟨i, hi⟩).unreadCount me
              = getCount (chats.get ⟨i, hj⟩).unreadCount me + 1
            ∧ ∀ k, k ≠ me →
                getCount ((updateChatsOnNewMessage me selected ev chats).get
                    ⟨i, hi⟩).unreadCount k
                  = getCount (chats.get ⟨i, hj⟩).unreadCount k)
       ∧ ((chats.get ⟨i, hj⟩).id = ev.chatId →
            (ev.senderId = me ∨ selected = some ev.chatId) →
            ((updateChatsOnNewMessage me selected ev chats).get ⟨i, hi⟩).unreadCount
              = (chats.get ⟨i, hj⟩).unreadCount))
    ∧ ((∀ c ∈ chats, ∀ k, 0 ≤ getCount c.unreadCount k) →
        ∀ c ∈ updateChatsOnNewMessage me selected ev chats, ∀ k,
          0 ≤ getCount c.unreadCount k)
    ∧ (∀ x, x ∈ moveChatToFront ev.chatId (updateChatsOnNewMessage me selected ev chats)
          ↔ x ∈ updateChatsOnNewMessage me selected ev chats) := by
  refine ⟨?_, ?_, ?_⟩
  · intro i hi hj
    refine ⟨?_, ?_, ?_⟩
    · intro hne
      simp only [List.get_eq_getElem] at hne ⊢
      simp [updateChatsOnNewMessage, hne]
    · intro heq hs hsel
      simp only [List.get_eq_getElem] at heq ⊢
      have hselb : (selected == some ev.chatId) = false := by simp [hsel]
      constructor
      · simp [updateChatsOnNewMessage, heq, hs, hselb, getCount_setCount_same]
      · intro k hk
        simp [updateChatsOnNewMessage, heq, hs, hselb,
          getCount_setCount_ne _ _ _ _ hk]
    · intro heq hor
      simp only [List.get_eq_getElem] at heq ⊢
      rcases hor with hs | hsel
      · simp [updateChatsOnNewMessage, heq, hs]
      · simp [updateChatsOnNewMessage, heq, hsel]
  · intro h0 c hc k
    rw [updateChatsOnNewMessage, List.mem_map] at hc
    obtain ⟨c0, hc0, rfl⟩ := hc
    by_cases hne : c0.id = ev.chatId
    · by_cases hinc : (ev.senderId != me && !(selected == some ev.chatId)) = true
      · by_cases hk : k = me
        · subst hk
          have hnn := h0 c0 hc0 k
          simp only [hne, hinc]
          simp [getCount_setCount_same]
          omega
        · have hnn := h0 c0 hc0 k
          simp only [hne, hinc]
          simpa [getCount_setCount_ne _ _ _ _ hk] using hnn
      · simpa [hne, hinc] using h0 c0 hc0 k
    · simpa [hne] using h0 c0 hc0 k
  · intro x
    exact mem_moveChatToFront ev.chatId (updateChatsOnNewMessage me selected ev chats) x

/-- Witness for C3 at concrete inputs: user u1 sends into chatA while user u2
has chatB open, so u2's counter for chatA goes from 0 to 1, and counters stay
non-negative. -/
theorem c3_unread_counters_witness :
    getCount ((updateChatsOnNewMessage "u2" (some "chatB") evC3 [chatA0]).get
        ⟨0, by decide⟩).unreadCount "u2"
      = getCount chatA0.unreadCount "u2" + 1
    ∧ ∀ c ∈ updateChatsOnNewMessage "u2" (some "chatB") evC3 [chatA0], ∀ k,
        0 ≤ getCount c.unreadCount k := by
  have h := c3_unread_counters "u2" (some "chatB") evC3 [chatA0]
  constructor
  · exact ((h.1 0 (by decide) (by decide)).2.1 (by decide) (by decide) (by decide)).1
  · refine h.2.1 ?_
    intro c hc k
    simp only [List.mem_singleton] at hc
    subst hc
    simp [chatA0, getCount]

/-- C4: after a fetch returning a page of k messages, the more-history flag
is true exactly when k is the full page size 50, the stored offset advances
by k, and a non-initial page is reversed and prepended before the existing
messages; for a chat with 60 stored messages, the fetch at offset 0 yields 50
messages with more-history true and the fetch at offset 50 yields exactly the
remaining 10 with more-history false. -/
theorem c4_pagination (off : Nat) (page : List Msg) (st : ClientChatState)
    (stored : List Msg) (h60 : stored.length = 60) :
    ((loadMessagesApply off page st).hasMore = true ↔ page.length = 50)
    ∧ (loadMessagesApply off page st).offset = off + page.length
    ∧ (off ≠ 0 → (loadMessagesApply off page st).messages = page.reverse ++ st.messages)
    ∧ (off = 0 → (loadMessagesApply off page st).messages = page.reverse)
    ∧ (listMessagesPage stored 0 50).length = 50
    ∧ (loadMessagesApply 0 (listMessagesPage stored 0 50) st).hasMore = true
    ∧ listMessagesPage stored 50 50 = stored.drop 50
    ∧ (listMessagesPage stored 50 50).length = 10
    ∧ (loadMessagesApply 50 (listMessagesPage stored 50 50) st).hasMore = false := by
  have hlen1 : (listMessagesPage stored 0 50).length = 50 := by
    simp [listMessagesPage, h60]
  have heq2 : listMessagesPage stored 50 50 = stored.drop 50 := by
    apply List.take_of_length_le
    simp [h60]
  have hlen2 : (listMessagesPage stored 50 50).length = 10 := by
    rw [heq2]
    simp [h60]
  refine ⟨?_, rfl, ?_, ?_, hlen1, ?_, heq2, hlen2, ?_⟩
  · simp [loadMessagesApply]
  · intro hne
    have : (off == 0) = false := by simpa using hne
    simp [loadMessagesApply, this]
  · intro h0
    simp [loadMessagesApply, h0]
  · simp [loadMessagesApply, hlen1]
  · simp [loadMessagesApply, hlen2]

/-- Witness for C4 on the concrete 60-message history `storedC4`. -/
theorem c4_pagination_witness :
    (listMessagesPage storedC4 0 50).length = 50
    ∧ (loadMessagesApply 0 (listMessagesPage storedC4 0 50) stEmpty).hasMore = true
    ∧ (listMessagesPage storedC4 50 50).length = 10
    ∧ (loadMessagesApply 50 (listMessagesPage storedC4 50 50) stEmpty).hasMore = false := by
  have h := c4_pagination 50 [] stEmpty storedC4 (by simp [storedC4])
  exact ⟨h.2.2.2.2.1, h.2.2.2.2.2.1, h.2.2.2.2.2.2.2.1, h.2.2.2.2.2.2.2.2⟩

/-- C5: the optimistic send appends a temporary record with the temporary id
and status "sending"; when the temporary id is fresh for the list, the
success continuation replaces exactly that record by the server response
(server id, status "sent", delivery timestamp stamped) leaving every other
message unchanged, and the failure continuation removes exactly that record,
restoring the original list. -/
theorem c5_optimistic_send (tempId chatId sendTime now content : String)
    (sender : Sender) (resp : Msg) (ms : List Msg)
    (hfresh : ∀ m ∈ ms, m.id ≠ tempId) :
    (sendOptimistic (tempMessage tempId chatId sender content sendTime) ms
        = ms ++ [tempMessage tempId chatId sender content sendTime]
      ∧ (tempMessage tempId chatId sender content sendTime).status = "sending"
      ∧ (tempMessage tempId chatId sender content sendTime).id = tempId)
    ∧ sendSuccess tempId resp sender now
        (sendOptimistic (tempMessage tempId chatId sender content sendTime) ms)
        = ms ++ [{ resp with
                   sender := some sender
                   status := "sent"
                   deliveredAt := some now }]
    ∧ sendFailure tempId
        (sendOptimistic (tempMessage tempId chatId sender content sendTime) ms)
        = ms := by
  have hmap : ∀ f : Msg → Msg, (∀ m ∈ ms, f m = m) → ms.map f = ms := by
    intro f hf
    rw [List.map_congr_left hf]
    exact List.map_id' ms
  refine ⟨⟨rfl, rfl, rfl⟩, ?_, ?_⟩
  · unfold sendSuccess sendOptimistic
    rw [List.map_append]
    congr 1
    · apply hmap
      intro m hm
      have : (m.id == tempId) = false := by simpa using hfresh m hm
      simp [this]
    · simp [tempMessage]
  · unfold sendFailure sendOptimistic
    rw [List.filter_append]
    have h1 : ms.filter (fun m => m.id != tempId) = ms := by
      apply List.filter_eq_self.mpr
      intro m hm
      simpa using hfresh m hm
    have h2 : [tempMessage tempId chatId sender content sendTime].filter
        (fun m => m.id != tempId) = [] := by
      simp [tempMessage]
    rw [h1, h2, List.append_nil]

/-- Witness for C5: a send into chatA on top of the singleton list holding
`msgOld`; the failure path restores `[msgOld]` and the success path yields
`msgOld` followed by the stamped server response `respC5`. -/
theorem c5_optimistic_send_witness :
    sendFailure "temp-1"
        (sendOptimistic
          (tempMessage "temp-1" "chatA" { id := "u1", firstName := "A", lastName := "B" }
            "hello" "2024-01-04T00:00:00Z") [msgOld])
        = [msgOld]
    ∧ sendSuccess "temp-1" respC5 { id := "u1", firstName := "A", lastName := "B" }
        "2024-01-04T00:00:05Z"
        (sendOptimistic
          (tempMessage "temp-1" "chatA" { id := "u1", firstName := "A", lastName := "B" }
            "hello" "2024-01-04T00:00:00Z") [msgOld])
        = [msgOld] ++ [{ respC5 with
            sender := some { id := "u1", firstName := "A", lastName := "B" }
            status := "sent"
            deliveredAt := some "2024-01-04T00:00:05Z" }] := by
  have h := c5_optimistic_send "temp-1" "chatA" "2024-01-04T00:00:00Z"
    "2024-01-04T00:00:05Z" "hello" { id := "u1", firstName := "A", lastName := "B" }
    respC5 [msgOld] (by intro m hm; simp only [List.mem_singleton] at hm; subst hm; decide)
  exact ⟨h.2.2, h.2.1⟩

/-- C6: the claim says a message-list response arriving after a chat switch
is checked against the currently selected chat and not applied.  The code has
no such check: with chatA's fetch in flight, selecting chatB resets the list,
and chatA's late response is then applied verbatim, so the visible list of
the selected chatB consists of a chatA message and the offset is advanced. -/
theorem c6_no_stale_chat_guard :
    staleScenario.selectedChatId = some "chatB"
    ∧ staleScenario.messages = [msgOld]
    ∧ msgOld.chatId = "chatA"
    ∧ staleScenario.offset = 1 := by
  refine ⟨rfl, by decide, rfl, rfl⟩

/-- C7: while a fetch is in flight (the loading flag is set) neither the
load-more handler nor the scroll path issues a request, and none is issued
when no more history exists; any issued request certifies that no fetch was
in flight and more history existed; raising the flag at fetch start blocks
further requests until the completion clears it. -/
theorem c7_no_concurrent_fetch (st : ClientChatState) (geom : ScrollMetrics)
    (off : Nat) (page : List Msg) :
    (st.loading = true →
        handleLoadMoreMessages st = none ∧ (handleScroll geom st).2 = none)
    ∧ (st.hasMore = false →
        handleLoadMoreMessages st = none ∧ (handleScroll geom st).2 = none)
    ∧ (∀ r, handleLoadMoreMessages st = some r →
        st.loading = false ∧ st.hasMore = true ∧ st.selectedChatId = some r.1
          ∧ r.2 = st.offset)
    ∧ handleLoadMoreMessages (loadMessagesStart st) = none
    ∧ (loadMessagesApply off page st).loading = false
    ∧ (loadMessagesFailed st).loading = false := by
  refine ⟨?_, ?_, ?_, ?_, rfl, rfl⟩
  · intro hl
    constructor
    · unfold handleLoadMoreMessages
      cases st.selectedChatId <;> simp [hl]
    · simp [handleScroll, hl]
  · intro hm
    constructor
    · unfold handleLoadMoreMessages
      cases st.selectedChatId <;> simp [hm]
    · simp [handleScroll, hm]
  · intro r hr
    unfold handleLoadMoreMessages at hr
    cases hsel : st.selectedChatId with
    | none => rw [hsel] at hr; simp at hr
    | some cid =>
      rw [hsel] at hr
      cases hm : st.hasMore with
      | false => simp [hm] at hr
      | true =>
        cases hl : st.loading with
        | true => simp [hm, hl] at hr
        | false =>
          simp [hm, hl] at hr
          subst hr
          exact ⟨rfl, rfl, rfl, rfl⟩
  · unfold handleLoadMoreMessages loadMessagesStart
    cases st.selectedChatId <;> simp

/-- Witness for C7: in the concrete in-flight state `stLoading` both the
load-more handler and the scroll path stay silent. -/
theorem c7_no_concurrent_fetch_witness :
    handleLoadMoreMessages stLoading = none
    ∧ (handleScroll geom0 stLoading).2 = none := by
  exact (c7_no_concurrent_fetch stLoading geom0 0 []).1 rfl

/-- Adding a user to the typing set always makes the user a member. -/
theorem mem_addTypingUser (l : List String) (u : String) : u ∈ addTypingUser l u := by
  unfold addTypingUser
  split
  · rename_i h
    simpa using h
  · simp

/-- C8: for a typing signal scoped to the open chat, a typing-start adds the
user to the typing set and registers a fresh timer with deadline 5000 ms from
now as the only pending timer of that user, leaving other users' timers
alone, and any superseded timer identifier no longer fires; the registered
timer, if it does fire (no further signal for the user before its deadline),
removes the user from the set and retires its entry; a typing-stop removes
the user immediately and leaves no pending timer for the user. -/
theorem c8_typing_timers (selected : Option String) (ev : TypingEvent) (now : Nat)
    (st : TypingState) (oldId : Nat) (hsc : selected = some ev.chatId) :
    (ev.isTyping = true →
        ev.userId ∈ (onTypingEvent selected ev now st).typingUsers
      ∧ (onTypingEvent selected ev now st).timers.lookup ev.userId
          = some (st.nextTimer, now + 5000)
      ∧ (∀ e ∈ (onTypingEvent selected ev now st).timers,
           e.1 = ev.userId → e = (ev.userId, st.nextTimer, now + 5000))
      ∧ (∀ e ∈ st.timers, e.1 ≠ ev.userId → e ∈ (onTypingEvent selected ev now st).timers)
      ∧ (oldId ≠ st.nextTimer →
           fireTypingTimer ev.userId oldId (onTypingEvent selected ev now st)
             = onTypingEvent selected ev now st))
    ∧ (ev.isTyping = false →
        ev.userId ∉ (onTypingEvent selected ev now st).typingUsers
      ∧ ∀ e ∈ (onTypingEvent selected ev now st).timers, e.1 ≠ ev.userId)
    ∧ (∀ u tid d, (u, tid, d) ∈ st.timers →
        u ∉ (fireTypingTimer u tid st).typingUsers
      ∧ ∀ e ∈ (fireTypingTimer u tid st).timers, e.1 ≠ u) := by
  subst hsc
  refine ⟨?_, ?_, ?_⟩
  · intro ht
    have hred : onTypingEvent (some ev.chatId) ev now st
        = { typingUsers := addTypingUser st.typingUsers ev.userId
            timers := (ev.userId, st.nextTimer, now + 5000)
                        :: st.timers.filter (fun e => e.1 != ev.userId)
            nextTimer := st.nextTimer + 1 } := by
      simp [onTypingEvent, ht]
    rw [hred]
    refine ⟨mem_addTypingUser st.typingUsers ev.userId, ?_, ?_, ?_, ?_⟩
    · simp [List.lookup]
    · intro e he h1
      rcases List.mem_cons.mp he with he0 | he1
      · exact he0
      · exfalso
        have := (List.mem_filter.mp he1).2
        simp [h1] at this
    · intro e he hne
      exact List.mem_cons_of_mem _ (List.mem_filter.mpr ⟨he, by simpa using hne⟩)
    · intro hold
      unfold fireTypingTimer
      have hany : (((ev.userId, st.nextTimer, now + 5000)
          :: st.timers.filter (fun e => e.1 != ev.userId)).any
            (fun e => e.1 == ev.userId && e.2.1 == oldId)) = false := by
        rw [List.any_eq_false]
        intro e he
        rcases List.mem_cons.mp he with he0 | he1
        · subst he0
          simp [Ne.symm hold]
        · have := (List.mem_filter.mp he1).2
          simp only [bne_iff_ne] at this
          simp [this]
      simp [hany]
  · intro ht
    have hred : onTypingEvent (some ev.chatId) ev now st
        = { typingUsers := st.typingUsers.filter (fun u => u != ev.userId)
            timers := st.timers.filter (fun e => e.1 != ev.userId)
            nextTimer := st.nextTimer } := by
      simp [onTypingEvent, ht]
    rw [hred]
    constructor
    · intro hmem
      have := (List.mem_filter.mp hmem).2
      simp at this
    · intro e he
      have := (List.mem_filter.mp he).2
      simpa using this
  · intro u tid d hmem
    have hany : (st.timers.any (fun e => e.1 == u && e.2.1 == tid)) = true := by
      rw [List.any_eq_true]
      exact ⟨(u, tid, d), hmem, by simp⟩
    unfold fireTypingTimer
    rw [hany]
    simp only [if_true]
    constructor
    · intro hmem2
      have := (List.mem_filter.mp hmem2).2
      simp at this
    · intro e he
      have := (List.mem_filter.mp he).2
      simpa using this

/-- Witness for C8: user u1 starts typing in the open chatA of an empty
state; u1 appears in the typing set with a fresh timer (identifier 0,
deadline 5000), and firing that registered timer on the resulting state
`typingStarted` clears u1 and its timer entry. -/
theorem c8_typing_timers_witness :
    "u1" ∈ (onTypingEvent (some "chatA") evTypingStart 0 typingSt0).typingUsers
    ∧ (onTypingEvent (some "chatA") evTypingStart 0 typingSt0).timers.lookup "u1"
        = some (0, 5000)
    ∧ "u1" ∉ (fireTypingTimer "u1" 0 typingStarted).typingUsers
    ∧ ∀ e ∈ (fireTypingTimer "u1" 0 typingStarted).timers, e.1 ≠ "u1" := by
  have h1 := (c8_typing_timers (some "chatA") evTypingStart 0 typingSt0 7 rfl).1 rfl
  have h3 := (c8_typing_timers (some "chatA") evTypingStart 0 typingStarted 7 rfl).2.2
    "u1" 0 5000 (by decide)
  exact ⟨h1.1, h1.2.1, h3.1, h3.2⟩

/-- Indexing into a mapped list evaluates the function at the original
element. -/
theorem get_map_of_lt {α β : Type} (f : α → β) (l : List α) (i : Nat)
    (hi : i < (l.map f).length) (hj : i < l.length) :
    (l.map f).get ⟨i, hi⟩ = f (l.get ⟨i, hj⟩) := by
  simp

/-- C9: the mark-chat-read route raises NotFound when no chat carries the id
and Forbidden when the caller is not a participant (in each case returning
the error before any write), and on success resets exactly the caller's
counter of that chat to zero, leaving every other counter, every other field,
and every other chat untouched. -/
theorem c9_mark_chat_read (db : List ServerChat) (chatId userId : String)
    (hid : isValidObjectId chatId = true) :
    ((∀ c ∈ db, c.id ≠ chatId) → markChatRead db chatId userId = .error .notFound)
    ∧ (∀ chat, db.find? (fun c => c.id == chatId) = some chat →
        userId ∉ chat.participants → markChatRead db chatId userId = .error .forbidden)
    ∧ (∀ db2, markChatRead db chatId userId = .ok db2 →
        db2.length = db.length
        ∧ ∀ i (hi : i < db2.length) (hj : i < db.length),
            (db2.get ⟨i, hi⟩).id = (db.get ⟨i, hj⟩).id
          ∧ (db2.get ⟨i, hi⟩).participants = (db.get ⟨i, hj⟩).participants
          ∧ (db2.get ⟨i, hi⟩).ctype = (db.get ⟨i, hj⟩).ctype
          ∧ (db2.get ⟨i, hi⟩).lastMessage = (db.get ⟨i, hj⟩).lastMessage
          ∧ (db2.get ⟨i, hi⟩).updatedAt = (db.get ⟨i, hj⟩).updatedAt
          ∧ ((db.get ⟨i, hj⟩).id = chatId →
               getCount (db2.get ⟨i, hi⟩).unreadCount userId = 0
               ∧ ∀ k, k ≠ userId →
                   getCount (db2.get ⟨i, hi⟩).unreadCount k
                     = getCount (db.get ⟨i, hj⟩).unreadCount k)
          ∧ ((db.get ⟨i, hj⟩).id ≠ chatId → db2.get ⟨i, hi⟩ = db.get ⟨i, hj⟩)) := by
  refine ⟨?_, ?_, ?_⟩
  · intro hnone
    have hfind : db.find? (fun c => c.id == chatId) = none := by
      rw [List.find?_eq_none]
      intro c hc
      simpa using hnone c hc
    simp [markChatRead, hid, hfind]
  · intro chat hfind hnp
    simp [markChatRead, hid, hfind, hnp]
  · intro db2 hok
    unfold markChatRead at hok
    rw [hid] at hok
    simp only [Bool.not_true, Bool.false_eq_true, if_false] at hok
    cases hfind : db.find? (fun c => c.id == chatId) with
    | none => rw [hfind] at hok; simp at hok
    | some chat =>
      rw [hfind] at hok
      by_cases hp : userId ∈ chat.participants
      · have hok2 : (Except.ok (db.map fun c =>
            if c.id == chatId then
              { c with unreadCount := setCount c.unreadCount userId 0 }
            else c) : Except ApiError (List ServerChat)) = .ok db2 := by
          rw [← hok]
          simp [hp]
        have hdb2 : db2 = db.map fun c =>
            if c.id == chatId then
              { c with unreadCount := setCount c.unreadCount userId 0 }
            else c := by
          injection hok2 with h
          exact h.symm
        subst hdb2
        refine ⟨by simp, ?_⟩
        intro i hi hj
        simp only [List.get_eq_getElem, List.getElem_map]
        by_cases hc : (db.get ⟨i, hj⟩).id = chatId
        · simp only [List.get_eq_getElem] at hc
          rw [if_pos (by simpa using hc)]
          refine ⟨rfl, rfl, rfl, rfl, rfl, ?_, ?_⟩
          · intro _
            exact ⟨getCount_setCount_same _ _ _,
              fun k hk => getCount_setCount_ne _ _ _ _ hk⟩
          · intro hne
            exact absurd hc hne
        · simp only [List.get_eq_getElem] at hc
          rw [if_neg (by simpa using hc)]
          exact ⟨rfl, rfl, rfl, rfl, rfl, fun h => absurd h hc, fun _ => rfl⟩
      · simp [hp] at hok

/-- Witness for C9: user u1 marks the concrete chat `chatS` read; the stored
counters become those of `chatSRead`: u1's counter is 0 and u2's counter 5 is
untouched. -/
theorem c9_mark_chat_read_witness :
    markChatRead [chatS] "0123456789abcdef01234567" "u1" = .ok [chatSRead]
    ∧ getCount chatSRead.unreadCount "u1" = 0
    ∧ getCount chatSRead.unreadCount "u2" = getCount chatS.unreadCount "u2" := by
  have heq : markChatRead [chatS] "0123456789abcdef01234567" "u1" = .ok [chatSRead] := by
    rfl
  have h := (c9_mark_chat_read [chatS] "0123456789abcdef01234567" "u1" (by decide)).2.2
    [chatSRead] heq
  have h6 := (h.2 0 (by decide) (by decide)).2.2.2.2.2.1 (by decide)
  exact ⟨heq, h6.1, h6.2 "u2" (by decide)⟩


/-- A successful chat-list response echoes exactly the parsed limit and
offset. -/
theorem listChats_ok_fields (db : List ServerChat) (userId : String)
    (limitRaw offsetRaw : RawIntParam) (lim off : Int)
    (hl : parseLimit limitRaw = .ok lim) (ho : parseOffset offsetRaw = .ok off) :
    ∀ r, listChats db userId limitRaw offsetRaw = .ok r →
      r.limit = lim ∧ r.offset = off := by
  intro r hr
  unfold listChats at hr
  rw [hl, ho] at hr
  simp only [Except.ok.injEq] at hr
  subst hr
  exact ⟨rfl, rfl⟩

/-- C10: for every chat-list request, an omitted limit defaults to 50 and an
omitted offset defaults to 0 (whatever the other parameter is); a supplied
limit that is not an integer in [1,100] fails with BadRequest for every
offset parameter, and a supplied offset that is not a non-negative integer
fails with BadRequest for every limit parameter, in all cases before any chat
is read (the outcome is independent of the chat store); and the response
helper reports 0 for a user absent from a counter map. -/
theorem c10_chat_list_params (db db2 : List ServerChat) (userId : String)
    (limitRaw offsetRaw : RawIntParam) (n : Int)
    (m : List (String × Int)) (k : String) :
    (∃ r, listChats db userId none none = .ok r ∧ r.limit = 50 ∧ r.offset = 0)
    ∧ (∀ r, listChats db userId none offsetRaw = .ok r → r.limit = 50)
    ∧ (∀ r, listChats db userId limitRaw none = .ok r → r.offset = 0)
    ∧ listChats db userId (some none) offsetRaw = .error .badRequest
    ∧ (¬(1 ≤ n ∧ n ≤ 100) →
        listChats db userId (some (some n)) offsetRaw = .error .badRequest)
    ∧ listChats db userId limitRaw (some none) = .error .badRequest
    ∧ (n < 0 → listChats db userId limitRaw (some (some n)) = .error .badRequest)
    ∧ (∀ e, listChats db userId limitRaw offsetRaw = .error e →
        listChats db2 userId limitRaw offsetRaw = .error e)
    ∧ (m.lookup k = none → getUnreadCount m k = 0) := by
  refine ⟨⟨_, rfl, rfl, rfl⟩, ?_, ?_, rfl, ?_, ?_, ?_, ?_, ?_⟩
  · intro r hr
    cases ho : parseOffset offsetRaw with
    | error e2 =>
      exfalso
      have hbad : listChats db userId none offsetRaw = .error e2 := by
        unfold listChats
        rw [ho]
        rfl
      rw [hbad] at hr
      simp at hr
    | ok off =>
      exact (listChats_ok_fields db userId none offsetRaw 50 off rfl ho r hr).1
  · intro r hr
    cases hl : parseLimit limitRaw with
    | error e1 =>
      exfalso
      have hbad : listChats db userId limitRaw none = .error e1 := by
        unfold listChats
        rw [hl]
      rw [hbad] at hr
      simp at hr
    | ok lim =>
      exact (listChats_ok_fields db userId limitRaw none lim 0 hl rfl r hr).2
  · intro hbad
    simp [listChats, parseLimit, hbad]
  · cases limitRaw with
    | none => rfl
    | some x =>
      cases x with
      | none => rfl
      | some v =>
        by_cases hv : 1 ≤ v ∧ v ≤ 100
        · simp [listChats, parseLimit, parseOffset, hv]
        · simp [listChats, parseLimit, hv]
  · intro hneg
    have hno : ¬(0 ≤ n) := by omega
    cases limitRaw with
    | none => simp [listChats, parseLimit, parseOffset, hno]
    | some x =>
      cases x with
      | none => rfl
      | some v =>
        by_cases hv : 1 ≤ v ∧ v ≤ 100
        · simp [listChats, parseLimit, parseOffset, hv, hno]
        · simp [listChats, parseLimit, hv]
  · intro e he
    unfold listChats at he ⊢
    cases hl : parseLimit limitRaw with
    | error e1 => rw [hl] at he; exact he
    | ok lim =>
      rw [hl] at he
      cases ho : parseOffset offsetRaw with
      | error e2 => rw [ho] at he; exact he
      | ok off => rw [ho] at he; simp at he
  · intro habs
    simp [getUnreadCount, habs]

/-- Witness for C10 covering each parameter combination the claim quantifies
over: a limit of 0 is rejected; a valid limit 5 together with offset -1 is
rejected; offset -1 is also rejected with the limit omitted; the rejection is
the same on a different store; an omitted limit yields 50 even with a
supplied offset 7; an omitted offset yields 0 even with a supplied limit 5;
and the empty counter map reports 0. -/
theorem c10_chat_list_params_witness :
    listChats [] "u1" (some (some 0)) none = .error .badRequest
    ∧ listChats [] "u1" (some (some 5)) (some (some (-1))) = .error .badRequest
    ∧ listChats [] "u1" none (some (some (-1))) = .error .badRequest
    ∧ listChats [chatS] "u1" (some (some 0)) none = .error .badRequest
    ∧ listChats [] "u1" none (some (some 7))
        = .ok { total := 0, count := 0, limit := 50, offset := 7, chats := [] }
    ∧ ({ total := 0, count := 0, limit := 50, offset := 7, chats := [] }
        : ChatListResponse).limit = 50
    ∧ listChats [] "u1" (some (some 5)) none
        = .ok { total := 0, count := 0, limit := 5, offset := 0, chats := [] }
    ∧ ({ total := 0, count := 0, limit := 5, offset := 0, chats := [] }
        : ChatListResponse).offset = 0
    ∧ getUnreadCount [] "u9" = 0 := by
  have h0 := c10_chat_list_params [] [chatS] "u1" (some (some 0)) none 0 [] "u9"
  have h1 := c10_chat_list_params [] [chatS] "u1" (some (some 5))
    (some (some (-1))) (-1) [] "u9"
  have h2 := c10_chat_list_params [] [chatS] "u1" none (some (some (-1))) (-1) [] "u9"
  have h3 := c10_chat_list_params [] [chatS] "u1" none (some (some 7)) 7 [] "u9"
  have h4 := c10_chat_list_params [] [chatS] "u1" (some (some 5)) none 5 [] "u9"
  have hoff7 : parseOffset (some (some 7)) = .ok 7 := by norm_num [parseOffset]
  have hlim5 : parseLimit (some (some 5)) = .ok 5 := by norm_num [parseLimit]
  have hr7 : listChats [] "u1" none (some (some 7))
      = .ok { total := 0, count := 0, limit := 50, offset := 7, chats := [] } := by
    unfold listChats
    rw [hoff7]
    simp [parseLimit]
  have hr5 : listChats [] "u1" (some (some 5)) none
      = .ok { total := 0, count := 0, limit := 5, offset := 0, chats := [] } := by
    unfold listChats
    rw [hlim5]
    simp [parseOffset]
  refine ⟨h0.2.2.2.2.1 (by decide), h1.2.2.2.2.2.2.1 (by decide),
    h2.2.2.2.2.2.2.1 (by decide),
    h0.2.2.2.2.2.2.2.1 .badRequest (h0.2.2.2.2.1 (by decide)),
    hr7, h3.2.1 _ hr7, hr5, h4.2.2.1 _ hr5,
    h0.2.2.2.2.2.2.2.2 rfl⟩
